import Mathlib

/-!
Verification of the milestone scanner scripts scan_nba_milestones_json.py and
scan_nhl_milestones_json.py.

The network is modelled as an oracle mapping each issued request to an
HttpResult, so every theorem quantifies over all possible behaviours of the
HTTP layer.  Fetch operations return, besides their result, the chronological
list of observable events (HTTP calls and pacing sleeps) so that channel
selection and rate gating can be stated.  Exception flow is modelled
separately with Except-valued variants that mirror the try and except blocks
of the source.
-/

namespace Milestones

/-- Target URLs built by the scripts.  The scraperApi constructor models the
proxy endpoint URL that embeds the target URL as a query parameter together
with the api key, as built by the NBA fetch_url proxy branch and the NHL
get_proxy_url. -/
inductive Url where
  | statsNba (pid : Nat)
  | nhlPlayer (pid : Nat)
  | nhlRoster (team : String)
  | scraperApi (apiKey : String) (target : Url)
deriving DecidableEq

/-- A URL hits the proxy endpoint exactly when it is the scraperapi URL. -/
def Url.isProxy : Url → Bool
  | .scraperApi _ _ => true
  | _ => false

/-- One HTTP GET as issued by requests.get: the URL and the timeout argument
passed in the source. -/
structure Request where
  url : Url
  timeout : Nat
deriving DecidableEq

/-- Observable events of a fetch: an HTTP call, or a pacing sleep
(time.sleep with random jitter). -/
inductive Event where
  | call (req : Request)
  | rateGate
deriving DecidableEq

def Event.isCall : Event → Bool
  | .call _ => true
  | .rateGate => false

def Event.isProxyCall : Event → Bool
  | .call r => r.url.isProxy
  | .rateGate => false

def Event.isDirectCall : Event → Bool
  | .call r => !r.url.isProxy
  | .rateGate => false

/-- Outcome of one requests.get call: either a response carrying a status
code and the result of parsing the body as JSON (none when response.json()
would raise), or a raised transport exception. -/
inductive HttpResult (α : Type) where
  | ok (status : Nat) (parsed : Option α)
  | exn (msg : String)
deriving DecidableEq

/-- A try and except block that swallows every exception: if the body raises,
the handler value is returned instead.  Except.error models a raised Python
exception propagating upward, Except.ok a normal return value. -/
def try_except {α : Type} (body : Except String α) (handler : Except String α) :
    Except String α :=
  match body with
  | .ok v => .ok v
  | .error _ => handler

/-- Classification both scripts apply to one requests.get outcome: a response
with status 200 yields whatever response.json() yields (none when it would
raise), and any other status or a raised exception yields no payload. -/
def channel_outcome {α : Type} (res : HttpResult α) : Option α :=
  match res with
  | .ok status parsed => if status = 200 then parsed else none
  | .exn _ => none

/-- Next milestone as computed inline by both scripts:
next_m = ((int(v) // STEP) + 1) * STEP. -/
def next_milestone (v step : Nat) : Nat := (v / step + 1) * step

/-- Amount needed as computed inline by both scripts: needed = next_m - v. -/
def amount_needed (v step : Nat) : Nat := next_milestone v step - v

/-- Roster acquisition outcome for the NBA script: either the player list, or
an exception raised by players.get_active_players. -/
inductive RosterSource (α : Type) where
  | ok (roster : List α)
  | exn (msg : String)

/-- Aggregated result of a scan: the collected candidates plus the number of
completed entities (the completed_count counter). -/
structure ScanResult (C : Type) where
  candidates : List C
  completed_count : Nat
deriving DecidableEq

/-- Aggregation performed by the as_completed loop of both scripts: each
outcome increments completed_count, truthy results are appended to
candidates. -/
def collect_results {C : Type} (outcomes : List (Option C)) : ScanResult C :=
  ⟨outcomes.filterMap id, outcomes.length⟩

namespace Nba

/-- MILESTONE_STEP = 1000. -/
def MILESTONE_STEP : Nat := 1000

/-- WITHIN_POINTS = 250. -/
def WITHIN_POINTS : Nat := 250

/-- MAX_WORKERS = 5. -/
def MAX_WORKERS : Nat := 5

/-- Proxy URL built in fetch_url when API_KEY is non-empty. -/
def proxy_url (apiKey : String) (url : Url) : Url := .scraperApi apiKey url

/-- The proxy channel request: scraperapi URL, timeout 30. -/
def proxyReq (apiKey : String) (url : Url) : Request := ⟨proxy_url apiKey url, 30⟩

/-- The direct channel request: the target URL as given, timeout 10. -/
def directReq (url : Url) : Request := ⟨url, 10⟩

/-- Direct connection attempt of fetch_url: sleeps a random 1.0 to 2.0
seconds, issues the GET, returns the parsed body on a 200 and None
otherwise; every exception is swallowed by the enclosing try block. -/
def direct_attempt {α : Type} (http : Request → HttpResult α) (url : Url) :
    Option α × List Event :=
  (channel_outcome (http (directReq url)), [.rateGate, .call (directReq url)])

/-- fetch_url: when API_KEY is non-empty, try the proxy first and return its
payload on a parseable 200; on a 403, any other status, an unparseable body
or a raised exception fall through to the direct attempt and return the
direct outcome.  When API_KEY is empty, go directly. -/
def fetch_url {α : Type} (apiKey : String) (http : Request → HttpResult α)
    (url : Url) : Option α × List Event :=
  if apiKey = "" then direct_attempt http url
  else
    match channel_outcome (http (proxyReq apiKey url)) with
    | some payload => (some payload, [.call (proxyReq apiKey url)])
    | none =>
      ((direct_attempt http url).1,
       .call (proxyReq apiKey url) :: (direct_attempt http url).2)

/-- One channel attempt with explicit exception flow: a transport error or an
unparseable 200 body raises, a parseable 200 returns the payload, any other
status returns None (the source only prints there). -/
def attempt_channel {α : Type} (http : Request → HttpResult α) (req : Request) :
    Except String (Option α) :=
  match http req with
  | .exn m => .error m
  | .ok status parsed =>
    if status = 200 then
      match parsed with
      | some payload => .ok (some payload)
      | none => .error "response body is not valid JSON"
    else .ok none

/-- fetch_url with explicit exception flow, mirroring the placement of the
two try and except blocks in the source: the proxy attempt is wrapped in one
handler, the direct attempt in another, and nothing between them can raise. -/
def fetch_url_exc {α : Type} (apiKey : String) (http : Request → HttpResult α)
    (url : Url) : Except String (Option α) :=
  let proxyRes : Except String (Option α) :=
    if apiKey = "" then .ok none
    else try_except (attempt_channel http (proxyReq apiKey url)) (.ok none)
  match proxyRes with
  | .error e => .error e
  | .ok (some payload) => .ok (some payload)
  | .ok none => try_except (attempt_channel http (directReq url)) (.ok none)

/-- A row of the first result set; index 26 of the row is PTS. -/
structure NbaRow where
  pts : Nat
deriving DecidableEq

/-- One entry of resultSets, carrying its rowSet. -/
structure NbaResultSet where
  rowSet : List NbaRow
deriving DecidableEq

/-- Payload of the playercareerstats endpoint. -/
structure NbaPayload where
  resultSets : List NbaResultSet
deriving DecidableEq

/-- A roster entry as used by process_player: fields id and full_name. -/
structure NbaPlayer where
  id : Nat
  full_name : String
deriving DecidableEq

/-- A candidate record as built by process_player. -/
structure NbaCandidate where
  player_name : String
  player_id : Nat
  current_stat : Nat
  target_milestone : Nat
  needed : Nat
  image_url : String
  team : String
deriving DecidableEq

/-- Headshot URL built for a candidate. -/
def headshot_url (pid : Nat) : String :=
  "https://cdn.nba.com/headshots/nba/latest/1040x760/" ++ toString pid ++ ".png"

/-- Career total extraction of process_player: None when resultSets is empty,
None when the first rowSet is empty, otherwise the sum of PTS over all rows. -/
def parse_total_pts (data : NbaPayload) : Option Nat :=
  match data.resultSets with
  | [] => none
  | rs :: _ =>
    match rs.rowSet with
    | [] => none
    | rows => some ((rows.map NbaRow.pts).sum)

/-- Milestone evaluation of process_player: None when total_pts is zero,
otherwise a candidate exactly when needed is within WITHIN_POINTS. -/
def evaluate (p : NbaPlayer) (total_pts : Nat) : Option NbaCandidate :=
  if total_pts = 0 then none
  else
    let next_m := next_milestone total_pts MILESTONE_STEP
    let needed := next_m - total_pts
    if needed ≤ WITHIN_POINTS then
      some ⟨p.full_name, p.id, total_pts, next_m, needed, headshot_url p.id, "NBA"⟩
    else none

/-- process_player: fetch the stats URL for the player, parse the career
total, evaluate the milestone rule; any fetch or parse failure yields None. -/
def process_player (apiKey : String) (http : Request → HttpResult NbaPayload)
    (p : NbaPlayer) : Option NbaCandidate × List Event :=
  let fetched := fetch_url apiKey http (Url.statsNba p.id)
  match fetched.1 with
  | none => (none, fetched.2)
  | some data =>
    match parse_total_pts data with
    | none => (none, fetched.2)
    | some total_pts => (evaluate p total_pts, fetched.2)

/-- The future_to_player map: one future per roster entry, keyed by a fresh
future identity, with no deduplication of entries. -/
def future_to_player (all_players : List NbaPlayer) : List (Nat × NbaPlayer) :=
  all_players.enum

/-- scan_nba: abort (return with no report) when the player list cannot be
loaded; otherwise submit every roster entry and aggregate all completions. -/
def scan_nba (rosterSrc : RosterSource NbaPlayer) (apiKey : String)
    (http : Request → HttpResult NbaPayload) : Option (ScanResult NbaCandidate) :=
  match rosterSrc with
  | .exn _ => none
  | .ok all_players =>
    some (collect_results ((future_to_player all_players).map
      (fun fp => (process_player apiKey http fp.2).1)))

end Nba

namespace Nhl

/-- STAT_TYPE = goals. -/
def STAT_TYPE : String := "goals"

/-- MILESTONE_STEP = 100. -/
def MILESTONE_STEP : Nat := 100

/-- WITHIN_RANGE = 15. -/
def WITHIN_RANGE : Nat := 15

/-- MIN_CAREER_STAT = 80. -/
def MIN_CAREER_STAT : Nat := 80

/-- MAX_WORKERS = 10. -/
def MAX_WORKERS : Nat := 10

/-- The 32 team abbreviations iterated when the roster is assembled. -/
def TEAM_ABBREVIATIONS : List String :=
  ["ANA", "BOS", "BUF", "CGY", "CAR", "CHI", "COL", "CBJ", "DAL", "DET",
   "EDM", "FLA", "LAK", "MIN", "MTL", "NSH", "NJD", "NYI", "NYR", "OTT",
   "PHI", "PIT", "SJS", "SEA", "STL", "TBL", "TOR", "UTA", "VAN", "VGK",
   "WSH", "WPG"]

/-- get_proxy_url: the URL unchanged when API_KEY is empty, otherwise the
scraperapi URL wrapping it. -/
def get_proxy_url (apiKey : String) (url : Url) : Url :=
  if apiKey = "" then url else .scraperApi apiKey url

/-- Payload of the player landing endpoint.  The goals field models
careerTotals.regularSeason.goals read with a default of 0 when absent;
headshot and currentTeamAbbrev model the corresponding keys read with
defaults of the empty string and NHL. -/
structure NhlPayload where
  goals : Option Nat
  headshot : Option String
  currentTeamAbbrev : Option String
deriving DecidableEq

/-- A candidate record as built by process_player. -/
structure NhlCandidate where
  player_name : String
  player_id : Nat
  team : String
  current_stat : Nat
  target_milestone : Nat
  needed : Nat
  image_url : String
  stat_type : String
deriving DecidableEq

/-- Legacy BAMGrid headshot URL used when the payload has no headshot. -/
def bamgrid_url (pid : Nat) : String :=
  "https://cms.nhl.bamgrid.com/images/headshots/current/168x168/" ++
    toString pid ++ ".jpg"

/-- Milestone evaluation of process_player on a parsed payload: None below
MIN_CAREER_STAT, otherwise a candidate exactly when needed is within
WITHIN_RANGE, with the headshot fallback applied to the image URL. -/
def evaluate (pid : Nat) (name : String) (data : NhlPayload) :
    Option NhlCandidate :=
  let career_val := data.goals.getD 0
  if career_val < MIN_CAREER_STAT then none
  else
    let next_m := next_milestone career_val MILESTONE_STEP
    let needed := next_m - career_val
    if needed ≤ WITHIN_RANGE then
      let img0 := data.headshot.getD ""
      let img_url := if img0 = "" then bamgrid_url pid else img0
      some ⟨name, pid, data.currentTeamAbbrev.getD "NHL", career_val, next_m,
            needed, img_url, STAT_TYPE⟩
    else none

/-- The single request issued per player: the landing URL routed through
get_proxy_url, timeout 30. -/
def playerReq (apiKey : String) (pid : Nat) : Request :=
  ⟨get_proxy_url apiKey (Url.nhlPlayer pid), 30⟩

/-- process_player: sleep a random 0.1 to 0.3 second jitter, issue one GET
through get_proxy_url, and on a parseable 200 evaluate the milestone rule;
any other status, an unparseable body or a raised exception yields None.
There is no second channel attempt. -/
def process_player (apiKey : String) (http : Request → HttpResult NhlPayload)
    (p : Nat × String) : Option NhlCandidate × List Event :=
  match channel_outcome (http (playerReq apiKey p.1)) with
  | some data => (evaluate p.1 p.2 data, [.rateGate, .call (playerReq apiKey p.1)])
  | none => (none, [.rateGate, .call (playerReq apiKey p.1)])

/-- process_player with explicit exception flow: the whole body is wrapped in
one try block whose handler returns None. -/
def process_player_exc (apiKey : String) (http : Request → HttpResult NhlPayload)
    (p : Nat × String) : Except String (Option NhlCandidate) :=
  try_except
    (match http (playerReq apiKey p.1) with
     | .exn m => .error m
     | .ok status parsed =>
       if status = 200 then
         match parsed with
         | some data => .ok (evaluate p.1 p.2 data)
         | none => .error "response body is not valid JSON"
       else .ok none)
    (.ok none)

/-- A roster entry of one team: id plus the default first and last names. -/
structure RosterPlayer where
  id : Nat
  firstName : String
  lastName : String
deriving DecidableEq

/-- Payload of the team roster endpoint, with its three position groups. -/
structure TeamRosterData where
  forwards : List RosterPlayer
  defensemen : List RosterPlayer
  goalies : List RosterPlayer
deriving DecidableEq

/-- Full name assembled from the default first and last names. -/
def full_name (pl : RosterPlayer) : String := pl.firstName ++ " " ++ pl.lastName

/-- The id and name pairs contributed by one team payload, iterating the
groups forwards, defensemen, goalies in order. -/
def team_players (d : TeamRosterData) : List (Nat × String) :=
  (d.forwards ++ d.defensemen ++ d.goalies).map (fun pl => (pl.id, full_name pl))

/-- The roster request for one team: the roster URL routed through
get_proxy_url, timeout 30. -/
def rosterReq (apiKey : String) (team : String) : Request :=
  ⟨get_proxy_url apiKey (Url.nhlRoster team), 30⟩

/-- One team roster fetch: the payload on a parseable 200, None otherwise;
exceptions are swallowed by the per-team try block whose handler continues
the loop. -/
def fetch_roster (apiKey : String) (http : Request → HttpResult TeamRosterData)
    (team : String) : Option TeamRosterData × List Event :=
  (channel_outcome (http (rosterReq apiKey team)), [.call (rosterReq apiKey team)])

/-- Insertion into the active_player_ids set, modelled as an append-if-absent
list.  The iteration order of a Python set is unspecified; this model fixes
insertion order, which no claim depends on. -/
def set_insert (s : List (Nat × String)) (x : Nat × String) :
    List (Nat × String) :=
  if x ∈ s then s else s ++ [x]

/-- Handling of one team in the roster loop: on a successful fetch add every
player of the team to the set, otherwise leave the set unchanged. -/
def team_step (apiKey : String) (http : Request → HttpResult TeamRosterData)
    (acc : List (Nat × String)) (team : String) : List (Nat × String) :=
  match (fetch_roster apiKey http team).1 with
  | some d => (team_players d).foldl set_insert acc
  | none => acc

/-- The roster assembly loop over all teams, starting from the empty set. -/
def build_roster (apiKey : String)
    (http : Request → HttpResult TeamRosterData) : List (Nat × String) :=
  TEAM_ABBREVIATIONS.foldl (team_step apiKey http) []

/-- The id and name pairs one team contributes: its players when its fetch
succeeds, nothing otherwise. -/
def team_members (apiKey : String) (http : Request → HttpResult TeamRosterData)
    (team : String) : List (Nat × String) :=
  match (fetch_roster apiKey http team).1 with
  | some d => team_players d
  | none => []

/-- scan_nhl: abort (return with no report) when API_KEY is empty; otherwise
assemble the roster, submit every deduplicated entry and aggregate all
completions. -/
def scan_nhl (apiKey : String)
    (httpRoster : Request → HttpResult TeamRosterData)
    (httpPlayer : Request → HttpResult NhlPayload) :
    Option (ScanResult NhlCandidate) :=
  if apiKey = "" then none
  else
    let player_list := build_roster apiKey httpRoster
    some (collect_results (player_list.map
      (fun p => (process_player apiKey httpPlayer p).1)))

end Nhl

/-! Helper lemmas shared by the claim theorems. -/

theorem length_filterMap_id_eq_countP {C : Type} (l : List (Option C)) :
    (l.filterMap id).length = l.countP (fun o => o.isSome) := by
  induction l with
  | nil => rfl
  | cons a t ih => cases a <;> simp [List.filterMap_cons, List.countP_cons, ih]

theorem countP_isSome_add_countP_isNone {C : Type} (l : List (Option C)) :
    l.countP (fun o => o.isSome) + l.countP (fun o => o.isNone) = l.length := by
  induction l with
  | nil => rfl
  | cons a t ih => cases a <;> simp [List.countP_cons] <;> omega

theorem try_attempt_channel {α : Type} (http : Request → HttpResult α)
    (req : Request) :
    try_except (Nba.attempt_channel http req) (Except.ok none)
      = Except.ok (channel_outcome (http req)) := by
  unfold try_except Nba.attempt_channel channel_outcome
  rcases http req with ⟨status, parsed⟩ | m
  · rcases parsed with _ | payload <;> by_cases hs : status = 200 <;> simp [hs]
  · rfl

theorem nba_fetch_url_trace {α : Type} (apiKey : String)
    (http : Request → HttpResult α) (url : Url) :
    (Nba.fetch_url apiKey http url).2 = [.call (Nba.proxyReq apiKey url)] ∨
    (Nba.fetch_url apiKey http url).2
      = [.call (Nba.proxyReq apiKey url), .rateGate, .call (Nba.directReq url)] ∨
    (Nba.fetch_url apiKey http url).2 = [.rateGate, .call (Nba.directReq url)] := by
  unfold Nba.fetch_url Nba.direct_attempt
  by_cases hk : apiKey = ""
  · rw [if_pos hk]; right; right; rfl
  · rw [if_neg hk]
    rcases channel_outcome (http (Nba.proxyReq apiKey url)) with _ | payload
    · right; left; rfl
    · left; rfl

theorem nba_process_player_trace (apiKey : String)
    (http : Request → HttpResult Nba.NbaPayload) (p : Nba.NbaPlayer) :
    (Nba.process_player apiKey http p).2
      = (Nba.fetch_url apiKey http (Url.statsNba p.id)).2 := by
  simp only [Nba.process_player]
  rcases h : (Nba.fetch_url apiKey http (Url.statsNba p.id)).1 with _ | data
  · rfl
  · rcases h2 : Nba.parse_total_pts data with _ | total <;> simp [h2]

theorem nhl_process_player_trace (apiKey : String)
    (http : Request → HttpResult Nhl.NhlPayload) (p : Nat × String) :
    (Nhl.process_player apiKey http p).2
      = [.rateGate, .call (Nhl.playerReq apiKey p.1)] := by
  unfold Nhl.process_player
  rcases channel_outcome (http (Nhl.playerReq apiKey p.1)) with _ | data <;> rfl

/-- Claim C2: for every cumulative value v and step s with 0 < s, the computed
target milestone is the smallest multiple of s strictly greater than v, the
amount needed satisfies 0 < needed and needed <= s, and when v is itself a
multiple of s the next higher multiple is targeted, so needed is never zero. -/
theorem next_milestone_correct (v s : Nat) (hs : 0 < s) :
    v < next_milestone v s ∧
    s ∣ next_milestone v s ∧
    (∀ m, s ∣ m → v < m → next_milestone v s ≤ m) ∧
    0 < amount_needed v s ∧
    amount_needed v s ≤ s ∧
    (s ∣ v → next_milestone v s = v + s) := by
  have he : next_milestone v s = v / s * s + s := by unfold next_milestone; ring
  have hlt : v < next_milestone v s := by
    rw [he]; exact Nat.lt_div_mul_add hs
  refine ⟨hlt, ⟨v / s + 1, by unfold next_milestone; ring⟩, ?_, ?_, ?_, ?_⟩
  · intro m hm hvm
    obtain ⟨k, hk⟩ := hm
    have hdiv : v / s < k := by
      rw [Nat.div_lt_iff_lt_mul hs, Nat.mul_comm, ← hk]; exact hvm
    calc next_milestone v s = (v / s + 1) * s := rfl
      _ ≤ k * s := Nat.mul_le_mul_right s hdiv
      _ = s * k := Nat.mul_comm k s
      _ = m := hk.symm
  · unfold amount_needed; omega
  · have hb : v / s * s ≤ v := Nat.div_mul_le_self v s
    unfold amount_needed; omega
  · rintro ⟨k, hk⟩
    have hq : v / s = k := by rw [hk]; exact Nat.mul_div_cancel_left k hs
    unfold next_milestone
    rw [hq, hk]; ring

theorem next_milestone_correct_witness :
    0 < 1000 ∧ next_milestone 9800 1000 = 10000 ∧ amount_needed 9800 1000 = 200 ∧
    0 < amount_needed 9800 1000 :=
  ⟨by decide, by decide, by decide, (next_milestone_correct 9800 1000 (by decide)).2.2.2.1⟩

/-- Claim C3: given a fetch that succeeded with cumulative value v, the
processor emits a candidate exactly when v reaches the minimum qualifying
value (1 for the NBA script, MIN_CAREER_STAT for the NHL script) and the
amount needed is within the threshold, both bounds inclusive. -/
theorem candidate_iff_thresholds :
    (∀ (p : Nba.NbaPlayer) (v : Nat),
        (Nba.evaluate p v).isSome = true ↔
          1 ≤ v ∧ amount_needed v Nba.MILESTONE_STEP ≤ Nba.WITHIN_POINTS) ∧
    (∀ (pid : Nat) (name : String) (data : Nhl.NhlPayload),
        (Nhl.evaluate pid name data).isSome = true ↔
          Nhl.MIN_CAREER_STAT ≤ data.goals.getD 0 ∧
            amount_needed (data.goals.getD 0) Nhl.MILESTONE_STEP
              ≤ Nhl.WITHIN_RANGE) := by
  constructor
  · intro p v
    simp only [Nba.evaluate, amount_needed]
    split_ifs with h1 h2 <;> simp <;> omega
  · intro pid name data
    simp only [Nhl.evaluate, amount_needed]
    split_ifs with h1 h2 h3 <;> simp <;> omega

/-- Claim C4: for every roster of N entities, every processing function and
every completion order (the order in which the worker pool of any size K
finishes the submitted futures is an arbitrary permutation of the submitted
outcomes), the aggregation accounts for every entity exactly once: candidates
plus suppressed or failed entities equal N, and the completion counter
equals N. -/
theorem scan_accounts_all_entities {E C : Type} (roster : List E)
    (f : E → Option C) (outcomes : List (Option C))
    (hperm : outcomes.Perm (roster.map f)) :
    (collect_results outcomes).candidates.length
        + outcomes.countP (fun o => o.isNone) = roster.length ∧
    (collect_results outcomes).completed_count = roster.length := by
  have hlen : outcomes.length = roster.length := by
    have h := hperm.length_eq
    simpa using h
  have h1 := length_filterMap_id_eq_countP outcomes
  have h2 := countP_isSome_add_countP_isNone outcomes
  constructor
  · simp only [collect_results]
    omega
  · simpa [collect_results] using hlen

theorem scan_accounts_all_entities_witness :
    (collect_results [none, some 1]).candidates.length
        + [none, some (1 : Nat)].countP (fun o => o.isNone) = 2 ∧
    (collect_results [none, some (1 : Nat)]).completed_count = 2 :=
  scan_accounts_all_entities [10, 20] (fun n => if n = 10 then some 1 else none)
    [none, some 1] (by decide)

/-- Claim C1 (amended): in the NBA script, fetch_url with a configured proxy
credential attempts the proxy channel first; on proxy success its payload is
returned immediately with no further call; on any proxy failure a direct
attempt preceded by a rate gate delay is made and the direct outcome is the
final result regardless of its kind.  The NHL script, by contrast, issues
exactly one HTTP call per player fetch, with no direct-channel fallback. -/
theorem fallback_fetch_behavior :
    (∀ {α : Type} (apiKey : String) (http : Request → HttpResult α) (url : Url)
        (payload : α),
        apiKey ≠ "" →
        channel_outcome (http (Nba.proxyReq apiKey url)) = some payload →
        Nba.fetch_url apiKey http url
          = (some payload, [.call (Nba.proxyReq apiKey url)])) ∧
    (∀ {α : Type} (apiKey : String) (http : Request → HttpResult α) (url : Url),
        apiKey ≠ "" →
        channel_outcome (http (Nba.proxyReq apiKey url)) = none →
        Nba.fetch_url apiKey http url
          = ((Nba.direct_attempt http url).1,
             [.call (Nba.proxyReq apiKey url), .rateGate,
              .call (Nba.directReq url)])) ∧
    (∀ (apiKey : String) (http : Request → HttpResult Nhl.NhlPayload)
        (p : Nat × String),
        ((Nhl.process_player apiKey http p).2.countP Event.isCall) = 1) := by
  refine ⟨?_, ?_, ?_⟩
  · intro α apiKey http url payload hk hp
    unfold Nba.fetch_url
    rw [if_neg hk, hp]
  · intro α apiKey http url hk hp
    unfold Nba.fetch_url
    rw [if_neg hk, hp]
    rfl
  · intro apiKey http p
    rw [nhl_process_player_trace]
    rfl

theorem fallback_fetch_behavior_witness :
    Nba.fetch_url "k"
        (fun r => match r.url with
                  | .scraperApi _ _ => HttpResult.ok 200 (some (7 : Nat))
                  | _ => .exn "blocked")
        (Url.statsNba 1)
      = (some 7, [.call (Nba.proxyReq "k" (Url.statsNba 1))]) :=
  fallback_fetch_behavior.1 "k" _ (Url.statsNba 1) 7 (by decide) (by rfl)

/-- Claim C1 counterexample: in the NHL script with a configured proxy
credential, a failing proxy attempt (here status 500) yields None with
exactly one proxy call and zero direct calls, so no direct-channel attempt
is made, contradicting the claim for this fetch. -/
theorem nhl_no_direct_fallback_counterexample :
    (Nhl.process_player "k" (fun _ => .ok 500 none) (1, "A")).1 = none ∧
    ((Nhl.process_player "k" (fun _ => .ok 500 none) (1, "A")).2.countP
        Event.isProxyCall) = 1 ∧
    ((Nhl.process_player "k" (fun _ => .ok 500 none) (1, "A")).2.countP
        Event.isDirectCall) = 0 := by
  decide

/-- Claim C5 (amended): in the NBA script, failure to obtain the roster is
the only condition that aborts the run, and in the NHL script a missing
proxy credential is the only condition that aborts the run; in both scripts
every other failure leaves the scan running to a report. -/
theorem abort_conditions :
    (∀ (rosterSrc : RosterSource Nba.NbaPlayer) (apiKey : String)
        (http : Request → HttpResult Nba.NbaPayload),
        Nba.scan_nba rosterSrc apiKey http = none ↔
          ∃ msg, rosterSrc = RosterSource.exn msg) ∧
    (∀ (apiKey : String) (httpRoster : Request → HttpResult Nhl.TeamRosterData)
        (httpPlayer : Request → HttpResult Nhl.NhlPayload),
        Nhl.scan_nhl apiKey httpRoster httpPlayer = none ↔ apiKey = "") := by
  constructor
  · intro rosterSrc apiKey http
    cases rosterSrc with
    | ok roster => simp [Nba.scan_nba]
    | exn msg => simp [Nba.scan_nba]
  · intro apiKey httpRoster httpPlayer
    unfold Nhl.scan_nhl
    by_cases h : apiKey = "" <;> simp [h]

set_option maxRecDepth 4000 in
/-- Claim C5 counterexample: the NHL script aborts when the proxy credential
is missing even though the roster is obtainable (here every team fetch
succeeds and the assembled roster has one player), so roster unavailability
is not the only aborting condition. -/
theorem nhl_missing_key_aborts_counterexample :
    Nhl.scan_nhl "" (fun _ => .ok 200 (some ⟨[⟨1, "Connor", "M"⟩], [], []⟩))
        (fun _ => .ok 500 none) = none ∧
    (Nhl.build_roster ""
        (fun _ => .ok 200 (some ⟨[⟨1, "Connor", "M"⟩], [], []⟩))).length = 1 := by
  constructor
  · rfl
  · decide

/-- Claim C6: when no proxy credential is configured, no fetch of either
script ever issues a call to the proxy endpoint: the NBA player fetch, the
NHL player fetch and the NHL roster fetch all go straight to the direct
channel, and get_proxy_url leaves the URL unchanged. -/
theorem no_proxy_without_credential :
    (∀ (http : Request → HttpResult Nba.NbaPayload) (p : Nba.NbaPlayer),
        ((Nba.process_player "" http p).2.countP Event.isProxyCall) = 0) ∧
    (∀ (url : Url), Nhl.get_proxy_url "" url = url) ∧
    (∀ (http : Request → HttpResult Nhl.NhlPayload) (p : Nat × String),
        ((Nhl.process_player "" http p).2.countP Event.isProxyCall) = 0) ∧
    (∀ (http : Request → HttpResult Nhl.TeamRosterData) (team : String),
        ((Nhl.fetch_roster "" http team).2.countP Event.isProxyCall) = 0) := by
  refine ⟨?_, ?_, ?_, ?_⟩
  · intro http p
    rw [nba_process_player_trace]
    unfold Nba.fetch_url
    rw [if_pos rfl]
    rfl
  · intro url
    unfold Nhl.get_proxy_url
    rw [if_pos rfl]
  · intro http p
    rw [nhl_process_player_trace]
    simp [Nhl.playerReq, Nhl.get_proxy_url, Event.isProxyCall, Url.isProxy,
      List.countP_cons]
  · intro http team
    unfold Nhl.fetch_roster
    simp [Nhl.rosterReq, Nhl.get_proxy_url, Event.isProxyCall, Url.isProxy,
      List.countP_cons]

theorem set_insert_nodup (s : List (Nat × String)) (x : Nat × String)
    (h : s.Nodup) : (Nhl.set_insert s x).Nodup := by
  unfold Nhl.set_insert
  split
  · exact h
  · next hx =>
    rw [List.nodup_append]
    exact ⟨h, List.nodup_singleton x, by simpa [List.disjoint_singleton] using hx⟩

theorem foldl_set_insert_nodup (xs : List (Nat × String))
    (acc : List (Nat × String)) (h : acc.Nodup) :
    (xs.foldl Nhl.set_insert acc).Nodup := by
  induction xs generalizing acc with
  | nil => exact h
  | cons x xs ih => exact ih _ (set_insert_nodup _ _ h)

theorem mem_set_insert (a x : Nat × String) (s : List (Nat × String)) :
    a ∈ Nhl.set_insert s x ↔ a ∈ s ∨ a = x := by
  unfold Nhl.set_insert
  split
  · next hx =>
    constructor
    · exact Or.inl
    · rintro (h | rfl)
      · exact h
      · exact hx
  · simp [List.mem_append]

theorem mem_foldl_set_insert (a : Nat × String) (xs acc : List (Nat × String)) :
    a ∈ xs.foldl Nhl.set_insert acc ↔ a ∈ acc ∨ a ∈ xs := by
  induction xs generalizing acc with
  | nil => simp
  | cons x xs ih =>
    rw [List.foldl_cons, ih, mem_set_insert, List.mem_cons]
    tauto

theorem mem_team_fold (a : Nat × String) (apiKey : String)
    (http : Request → HttpResult Nhl.TeamRosterData) (teams : List String)
    (acc : List (Nat × String)) :
    a ∈ teams.foldl (Nhl.team_step apiKey http) acc ↔
      a ∈ acc ∨ ∃ t ∈ teams, a ∈ Nhl.team_members apiKey http t := by
  induction teams generalizing acc with
  | nil => simp
  | cons t ts ih =>
    rw [List.foldl_cons, ih]
    have hstep : a ∈ Nhl.team_step apiKey http acc t ↔
        a ∈ acc ∨ a ∈ Nhl.team_members apiKey http t := by
      unfold Nhl.team_step Nhl.team_members
      rcases h : (Nhl.fetch_roster apiKey http t).1 with _ | d
      · simp
      · rw [mem_foldl_set_insert]
    rw [hstep]
    simp only [List.mem_cons]
    constructor
    · rintro ((h | h) | ⟨u, hu, h⟩)
      · exact Or.inl h
      · exact Or.inr ⟨t, Or.inl rfl, h⟩
      · exact Or.inr ⟨u, Or.inr hu, h⟩
    · rintro (h | ⟨u, (rfl | hu), h⟩)
      · exact Or.inl (Or.inl h)
      · exact Or.inl (Or.inr h)
      · exact Or.inr ⟨u, hu, h⟩

/-- Claim C7 (amended): the NHL script deduplicates the assembled roster by
the pair of id and name before scheduling, so the scheduled list has no
duplicate pairs; the NBA script performs no deduplication and schedules each
roster entry exactly as submitted. -/
theorem dedup_behavior :
    (∀ (apiKey : String) (http : Request → HttpResult Nhl.TeamRosterData),
        (Nhl.build_roster apiKey http).Nodup) ∧
    (∀ (roster : List Nba.NbaPlayer),
        (Nba.future_to_player roster).map Prod.snd = roster) := by
  constructor
  · intro apiKey http
    unfold Nhl.build_roster
    have main : ∀ (teams : List String) (acc : List (Nat × String)),
        acc.Nodup → (teams.foldl (Nhl.team_step apiKey http) acc).Nodup := by
      intro teams
      induction teams with
      | nil => intro acc h; exact h
      | cons t ts ih =>
        intro acc h
        rw [List.foldl_cons]
        refine ih _ ?_
        unfold Nhl.team_step
        split
        · exact foldl_set_insert_nodup _ _ h
        · exact h
    exact main _ _ List.nodup_nil
  · intro roster
    exact List.enum_map_snd roster

/-- Claim C7 counterexample: the NBA script submits a roster containing the
same identity twice as two separate futures, so that identity is processed
twice, and the scan completes two entities for the two duplicate entries. -/
theorem nba_duplicate_processed_twice_counterexample :
    ¬ ((((Nba.future_to_player [⟨1, "A"⟩, ⟨1, "A"⟩]).map Prod.snd).countP
          (fun q => q.id == 1)) ≤ 1) ∧
    Nba.scan_nba (.ok [⟨1, "A"⟩, ⟨1, "A"⟩]) "" (fun _ => .exn "x")
      = some ⟨[], 2⟩ := by
  decide

/-- Claim C8 (amended): every channel attempt applies a bounded, hardcoded
timeout: 30 seconds on the NBA proxy channel and on every NHL request, and
10 seconds on the NBA direct channel; there is no configurable 20 second
default. -/
theorem timeout_values :
    (∀ (apiKey : String) (http : Request → HttpResult Nba.NbaPayload)
        (p : Nba.NbaPlayer) (req : Request),
        Event.call req ∈ (Nba.process_player apiKey http p).2 →
        (req.url.isProxy = true → req.timeout = 30) ∧
        (req.url.isProxy = false → req.timeout = 10)) ∧
    (∀ (apiKey : String) (http : Request → HttpResult Nhl.NhlPayload)
        (p : Nat × String) (req : Request),
        Event.call req ∈ (Nhl.process_player apiKey http p).2 →
        req.timeout = 30) ∧
    (∀ (apiKey : String) (http : Request → HttpResult Nhl.TeamRosterData)
        (team : String) (req : Request),
        Event.call req ∈ (Nhl.fetch_roster apiKey http team).2 →
        req.timeout = 30) := by
  refine ⟨?_, ?_, ?_⟩
  · intro apiKey http p req hmem
    rw [nba_process_player_trace] at hmem
    rcases nba_fetch_url_trace apiKey http (Url.statsNba p.id) with h | h | h <;>
        rw [h] at hmem <;>
        simp only [List.mem_cons, List.mem_singleton, List.not_mem_nil,
          or_false] at hmem
    · rcases hmem with hmem
      cases hmem
      exact ⟨fun _ => rfl, fun hfalse => by
        simp [Nba.proxyReq, Nba.proxy_url, Url.isProxy] at hfalse⟩
    · rcases hmem with hmem | hmem | hmem
      · cases hmem
        exact ⟨fun _ => rfl, fun hfalse => by
          simp [Nba.proxyReq, Nba.proxy_url, Url.isProxy] at hfalse⟩
      · cases hmem
      · cases hmem
        exact ⟨fun htrue => by
          simp [Nba.directReq, Url.isProxy] at htrue, fun _ => rfl⟩
    · rcases hmem with hmem | hmem
      · cases hmem
      · cases hmem
        exact ⟨fun htrue => by
          simp [Nba.directReq, Url.isProxy] at htrue, fun _ => rfl⟩
  · intro apiKey http p req hmem
    rw [nhl_process_player_trace] at hmem
    simp only [List.mem_cons, List.mem_singleton, List.not_mem_nil,
      or_false] at hmem
    rcases hmem with hmem | hmem
    · cases hmem
    · cases hmem
      rfl
  · intro apiKey http team req hmem
    unfold Nhl.fetch_roster at hmem
    simp only [List.mem_singleton] at hmem
    cases hmem
    rfl

theorem timeout_values_witness :
    ((Request.mk (Url.statsNba 1) 10).url.isProxy = true →
        (Request.mk (Url.statsNba 1) 10).timeout = 30) ∧
    ((Request.mk (Url.statsNba 1) 10).url.isProxy = false →
        (Request.mk (Url.statsNba 1) 10).timeout = 10) :=
  timeout_values.1 "" (fun _ => .exn "x") ⟨1, "A"⟩ ⟨Url.statsNba 1, 10⟩ (by decide)

/-- Claim C8 counterexample: the NBA direct channel attempt carries a
timeout of 10 seconds, which lies outside the claimed range of 15 to 30. -/
theorem direct_timeout_out_of_range_counterexample :
    Event.call ⟨Url.statsNba 1, 10⟩
        ∈ (Nba.process_player "" (fun _ => .exn "x") ⟨1, "A"⟩).2 ∧
    ¬ (15 ≤ (10 : Nat)) := by
  decide

/-- Claim C9: for every URL and every behaviour of the HTTP layer, including
any status code, any raised transport exception and a 200 response whose body
does not parse, the NBA fetch_url and the NHL per-player worker return a
normal value (a payload or None) and never let an exception propagate: the
exception-explicit models always evaluate to Except.ok of the plain result. -/
theorem fetch_never_propagates_exceptions :
    (∀ {α : Type} (apiKey : String) (http : Request → HttpResult α) (url : Url),
        Nba.fetch_url_exc apiKey http url
          = Except.ok (Nba.fetch_url apiKey http url).1) ∧
    (∀ (apiKey : String) (http : Request → HttpResult Nhl.NhlPayload)
        (p : Nat × String),
        Nhl.process_player_exc apiKey http p
          = Except.ok (Nhl.process_player apiKey http p).1) := by
  constructor
  · intro α apiKey http url
    by_cases hk : apiKey = ""
    · simp only [Nba.fetch_url_exc, Nba.fetch_url, if_pos hk]
      exact try_attempt_channel http (Nba.directReq url)
    · simp only [Nba.fetch_url_exc, Nba.fetch_url, if_neg hk,
        try_attempt_channel]
      rcases h : channel_outcome (http (Nba.proxyReq apiKey url)) with _ | payload <;>
        rfl
  · intro apiKey http p
    unfold Nhl.process_player_exc Nhl.process_player try_except channel_outcome
    rcases http (Nhl.playerReq apiKey p.1) with ⟨status, parsed⟩ | m
    · rcases parsed with _ | data <;> by_cases hs : status = 200 <;> simp [hs]
    · rfl

/-- Claim C10: in the NHL script a failure while fetching any single team
roster (raised exception, non-200 status or unparseable body) contributes no
players and is silently skipped, the assembled roster is exactly the union of
the successfully fetched teams, and a partial or even empty roster never
aborts the scan: with a configured credential the scan always produces a
report. -/
theorem partial_roster_failures_skipped :
    (∀ (apiKey : String) (http : Request → HttpResult Nhl.TeamRosterData)
        (x : Nat × String),
        x ∈ Nhl.build_roster apiKey http ↔
          ∃ t ∈ Nhl.TEAM_ABBREVIATIONS, x ∈ Nhl.team_members apiKey http t) ∧
    (∀ (apiKey : String) (httpRoster : Request → HttpResult Nhl.TeamRosterData)
        (httpPlayer : Request → HttpResult Nhl.NhlPayload),
        apiKey ≠ "" →
        (Nhl.scan_nhl apiKey httpRoster httpPlayer).isSome = true) := by
  constructor
  · intro apiKey http x
    unfold Nhl.build_roster
    rw [mem_team_fold]
    simp
  · intro apiKey httpRoster httpPlayer hk
    unfold Nhl.scan_nhl
    rw [if_neg hk]
    rfl

theorem partial_roster_failures_skipped_witness :
    (Nhl.scan_nhl "k" (fun _ => HttpResult.exn "connection reset")
        (fun _ => HttpResult.ok 500 none)).isSome = true :=
  partial_roster_failures_skipped.2 "k" _ _ (by decide)

end Milestones
